import Mathlib

/-!
Shallow embedding of the `game_die` crate (`src/lib.rs`): a configurable die
constructed through `DieBuilder`, drawing values from a pluggable `DieRng`
random-number capability, with the optional `history` feature modelled as
enabled.  Machine integers (`u8`) are modelled as `Nat`; where a claim
quantifies over a `u8` input, the `< 256` range of the type is carried as an
explicit hypothesis.  Methods taking `&mut self` are embedded by explicit
state passing (the method returns its result paired with the updated
receiver); methods taking `&self` return the receiver unchanged.
-/

/-- Embedding of the trait `DieRng` (`fn random_int(&self, l: u8, h: u8) -> u8`).
The method takes the receiver by shared reference, so an implementation is
modelled as a function of the two bounds. -/
structure DieRng where
  random_int : Nat → Nat → Nat

/-- Range guarantee of `rand::thread_rng().gen_range(l..h)`: for `l < h` the
draw lies in the half-open interval `[l, h)`.  `DieStdRng` draws from the
process-wide generator and is nondeterministic, so its behaviour during one
run is modelled as an arbitrary function satisfying this guarantee. -/
def DieStdRngSpec (r : DieRng) : Prop :=
  ∀ l h, l < h → l ≤ r.random_int l h ∧ r.random_int l h < h

/-- Embedding of `struct Die`, with the `history` feature enabled. -/
structure Die where
  sides : Nat
  rng : DieRng
  history : List Nat

/-- Embedding of `struct DieBuilder`. -/
structure DieBuilder where
  sides : Nat
  rng : DieRng

/-- `DieBuilder::new`: defaults to a 6-sided die using the standard RNG.  The
standard RNG draws from the ambient process-wide generator, so the embedding
takes the function `std` it behaves as during the run as a parameter. -/
def DieBuilder.new (std : DieRng) : DieBuilder :=
  { sides := 6, rng := std }

/-- `DieBuilder::sides`: stores the requested side count only when it exceeds
1; otherwise the builder is returned unchanged.  (Named `sides'` because the
field projection already carries the source name.) -/
def DieBuilder.sides' (b : DieBuilder) (n : Nat) : DieBuilder :=
  if n > 1 then { b with sides := n } else b

/-- `DieBuilder::rng`: replaces the configured RNG unconditionally.  (Named
`rng'` because the field projection already carries the source name.) -/
def DieBuilder.rng' (b : DieBuilder) (r : DieRng) : DieBuilder :=
  { b with rng := r }

/-- `DieBuilder::build`: the die takes the builder's current fields and starts
with an empty history. -/
def DieBuilder.build (b : DieBuilder) : Die :=
  { sides := b.sides, rng := b.rng, history := [] }

/-- `Die::builder`: delegates to `DieBuilder::new`. -/
def Die.builder (std : DieRng) : DieBuilder :=
  DieBuilder.new std

/-- `Die::roll` (`&mut self`): draws `random_int(1, sides)` from the
configured RNG, appends the result to the history, and returns it. -/
def Die.roll (d : Die) : Nat × Die :=
  let ret := d.rng.random_int 1 d.sides
  (ret, { d with history := d.history ++ [ret] })

/-- `Die::get_history` (`&self`): returns a copy of the history; the receiver
is returned unchanged by the state-passing embedding. -/
def Die.get_history (d : Die) : List Nat × Die :=
  (d.history, d)

/-- One builder call, for quantifying over arbitrary chains of builder
calls. -/
inductive BuilderOp where
  | setSides (n : Nat)
  | setRng (r : DieRng)

/-- Apply one builder call. -/
def applyOp (b : DieBuilder) : BuilderOp → DieBuilder
  | BuilderOp.setSides n => b.sides' n
  | BuilderOp.setRng r => b.rng' r

/-- Apply a chain of builder calls in order. -/
def applyOps (b : DieBuilder) (ops : List BuilderOp) : DieBuilder :=
  ops.foldl applyOp b

/-- `k` successive calls to `roll()`, returning the produced values in call
order together with the final die. -/
def Die.rollN : Die → Nat → List Nat × Die
  | d, 0 => ([], d)
  | d, Nat.succ k =>
    let r := Die.roll d
    let rest := Die.rollN r.2 k
    (r.1 :: rest.1, rest.2)

/-- The stub RNG from the crate's test suite (`_DieTerribleRng`): always
returns its lower bound. -/
def DieTerribleRng : DieRng :=
  { random_int := fun l _ => l }

/-- A deliberately out-of-contract RNG: always returns 200, whatever the
bounds. -/
def BigRng : DieRng :=
  { random_int := fun _ _ => 200 }

theorem roll_fst (d : Die) : (Die.roll d).1 = d.rng.random_int 1 d.sides := rfl

theorem roll_snd_sides (d : Die) : (Die.roll d).2.sides = d.sides := rfl

theorem roll_snd_rng (d : Die) : (Die.roll d).2.rng = d.rng := rfl

theorem roll_snd_history (d : Die) :
    (Die.roll d).2.history = d.history ++ [(Die.roll d).1] := rfl

theorem get_history_fst (d : Die) : (Die.get_history d).1 = d.history := rfl

theorem get_history_snd (d : Die) : (Die.get_history d).2 = d := rfl

theorem rollN_sides (d : Die) (k : Nat) : (Die.rollN d k).2.sides = d.sides := by
  induction k generalizing d with
  | zero => rfl
  | succ k ih =>
    show (Die.rollN (Die.roll d).2 k).2.sides = d.sides
    rw [ih, roll_snd_sides]

theorem rollN_rng (d : Die) (k : Nat) : (Die.rollN d k).2.rng = d.rng := by
  induction k generalizing d with
  | zero => rfl
  | succ k ih =>
    show (Die.rollN (Die.roll d).2 k).2.rng = d.rng
    rw [ih, roll_snd_rng]

theorem rollN_history (d : Die) (k : Nat) :
    (Die.rollN d k).2.history = d.history ++ (Die.rollN d k).1 := by
  induction k generalizing d with
  | zero => simp [Die.rollN]
  | succ k ih =>
    show (Die.rollN (Die.roll d).2 k).2.history
        = d.history ++ ((Die.roll d).1 :: (Die.rollN (Die.roll d).2 k).1)
    rw [ih, roll_snd_history]
    simp

theorem rollN_length (d : Die) (k : Nat) : (Die.rollN d k).1.length = k := by
  induction k generalizing d with
  | zero => rfl
  | succ k ih =>
    show ((Die.roll d).1 :: (Die.rollN (Die.roll d).2 k).1).length = k + 1
    simp [ih]

theorem new_sides (std : DieRng) : (DieBuilder.new std).sides = 6 := rfl

theorem sidesB_rng (b : DieBuilder) (n : Nat) : (b.sides' n).rng = b.rng := by
  unfold DieBuilder.sides'
  split <;> rfl

theorem sidesB_ge (b : DieBuilder) (n : Nat) (h : 2 ≤ b.sides) :
    2 ≤ (b.sides' n).sides := by
  unfold DieBuilder.sides'
  split
  · next hn => exact hn
  · exact h

theorem applyOps_sides_ge (ops : List BuilderOp) (b : DieBuilder)
    (h : 2 ≤ b.sides) : 2 ≤ (applyOps b ops).sides := by
  induction ops generalizing b with
  | nil => exact h
  | cons op ops ih =>
    cases op with
    | setSides n => exact ih _ (sidesB_ge b n h)
    | setRng r => exact ih _ h

/-- Claim C1: for every `u8` value `n > 1`, a die built with `sides(n)` and the
default random source returns, on every call to `roll()` (i.e. after any
number `k` of earlier rolls), a value at least 1 and strictly below `n`. -/
theorem roll_default_in_range (std : DieRng) (hstd : DieStdRngSpec std)
    (n : Nat) (h1 : 1 < n) (h256 : n < 256) (k : Nat) :
    1 ≤ (Die.roll (Die.rollN (DieBuilder.build
        (DieBuilder.sides' (DieBuilder.new std) n)) k).2).1 ∧
    (Die.roll (Die.rollN (DieBuilder.build
        (DieBuilder.sides' (DieBuilder.new std) n)) k).2).1 < n := by
  have hs : (DieBuilder.sides' (DieBuilder.new std) n).sides = n := by
    unfold DieBuilder.sides'
    rw [if_pos h1]
  have hb : (DieBuilder.build (DieBuilder.sides' (DieBuilder.new std) n)).sides = n := hs
  have hr : (DieBuilder.build (DieBuilder.sides' (DieBuilder.new std) n)).rng = std :=
    sidesB_rng (DieBuilder.new std) n
  rw [roll_fst, rollN_rng, rollN_sides, hb, hr]
  exact hstd 1 n h1

/-- Witness for C1 at a concrete RNG behaviour, `n = 6`, `k = 0`. -/
theorem roll_default_in_range_witness :
    1 ≤ (Die.roll (Die.rollN (DieBuilder.build
        (DieBuilder.sides' (DieBuilder.new DieTerribleRng) 6)) 0).2).1 ∧
    (Die.roll (Die.rollN (DieBuilder.build
        (DieBuilder.sides' (DieBuilder.new DieTerribleRng) 6)) 0).2).1 < 6 :=
  roll_default_in_range DieTerribleRng
    (fun l h hlh => ⟨Nat.le_refl l, hlh⟩) 6 (by decide) (by decide) 0

/-- Claim C2: every die produced by `build()` after any chain of builder calls
has `sides ≥ 2`, and the invariant is preserved by every subsequent `roll()`
and by `get_history()`. -/
theorem die_sides_ge_two (std : DieRng) (ops : List BuilderOp) (k : Nat) :
    2 ≤ (DieBuilder.build (applyOps (DieBuilder.new std) ops)).sides ∧
    2 ≤ (Die.rollN (DieBuilder.build (applyOps (DieBuilder.new std) ops)) k).2.sides ∧
    2 ≤ (Die.get_history
        (Die.rollN (DieBuilder.build (applyOps (DieBuilder.new std) ops)) k).2).2.sides := by
  have h := applyOps_sides_ge ops (DieBuilder.new std) (by rw [new_sides]; decide)
  refine ⟨h, ?_, ?_⟩
  · rw [rollN_sides]
    exact h
  · rw [get_history_snd, rollN_sides]
    exact h

/-- Claim C3: `sides(n)` stores `n` exactly when `n > 1` and never touches the
RNG; for every `n ≤ 1` the builder is returned unchanged, so the built die is
identical to one built from the prior configuration. -/
theorem sides_update_spec (b : DieBuilder) (n : Nat) :
    (DieBuilder.sides' b n).sides = (if 1 < n then n else b.sides) ∧
    (DieBuilder.sides' b n).rng = b.rng ∧
    (n ≤ 1 → DieBuilder.sides' b n = b ∧
      DieBuilder.build (DieBuilder.sides' b n) = DieBuilder.build b) := by
  unfold DieBuilder.sides'
  by_cases h : 1 < n
  · rw [if_pos h, if_pos h]
    exact ⟨rfl, rfl, fun hle => absurd h (by omega)⟩
  · rw [if_neg h, if_neg h]
    exact ⟨rfl, rfl, fun _ => ⟨rfl, rfl⟩⟩

/-- Witness for C3: passing `1` to a fresh builder leaves it unchanged. -/
theorem sides_update_spec_witness :
    DieBuilder.sides' (DieBuilder.new DieTerribleRng) 1
      = DieBuilder.new DieTerribleRng :=
  ((sides_update_spec (DieBuilder.new DieTerribleRng) 1).2.2 (by decide)).1

/-- Claim C4: with history enabled, a freshly built die has an empty history,
and after `k` rolls `get_history()` has length exactly `k` with its `i`-th
element equal to the value returned by the `i`-th roll, for every `i < k`. -/
theorem history_tracks_rolls (std : DieRng) (ops : List BuilderOp) (k : Nat) :
    (Die.get_history (DieBuilder.build (applyOps (DieBuilder.new std) ops))).1 = [] ∧
    (Die.get_history
        (Die.rollN (DieBuilder.build (applyOps (DieBuilder.new std) ops)) k).2).1.length = k ∧
    (∀ i, i < k →
      (Die.get_history
          (Die.rollN (DieBuilder.build (applyOps (DieBuilder.new std) ops)) k).2).1.get? i =
      (Die.rollN (DieBuilder.build (applyOps (DieBuilder.new std) ops)) k).1.get? i) := by
  have hh : (Die.rollN (DieBuilder.build (applyOps (DieBuilder.new std) ops)) k).2.history
      = (Die.rollN (DieBuilder.build (applyOps (DieBuilder.new std) ops)) k).1 := by
    rw [rollN_history]
    rfl
  refine ⟨rfl, ?_, ?_⟩
  · rw [get_history_fst, hh, rollN_length]
  · intro i hi
    rw [get_history_fst, hh]

/-- Witness for C4 at `k = 1`, `i = 0`. -/
theorem history_tracks_rolls_witness :
    (Die.get_history
        (Die.rollN (DieBuilder.build (applyOps (DieBuilder.new DieTerribleRng) [])) 1).2).1.get? 0 =
    (Die.rollN (DieBuilder.build (applyOps (DieBuilder.new DieTerribleRng) [])) 1).1.get? 0 :=
  (history_tracks_rolls DieTerribleRng [] 1).2.2 0 (by decide)

/-- Claim C5: every call to `roll()` on a builder-constructed die passes
exactly the bounds `low = 1` and `high = sides` to the configured RNG, and
those bounds always satisfy `low < high`, so violated bounds are never handed
to the capability. -/
theorem roll_bounds_safe (std : DieRng) (ops : List BuilderOp) (k : Nat) :
    (Die.roll (Die.rollN (DieBuilder.build (applyOps (DieBuilder.new std) ops)) k).2).1
      = (Die.rollN (DieBuilder.build (applyOps (DieBuilder.new std) ops)) k).2.rng.random_int 1
          (Die.rollN (DieBuilder.build (applyOps (DieBuilder.new std) ops)) k).2.sides ∧
    1 < (Die.rollN (DieBuilder.build (applyOps (DieBuilder.new std) ops)) k).2.sides := by
  refine ⟨roll_fst _, ?_⟩
  rw [rollN_sides]
  exact applyOps_sides_ge ops (DieBuilder.new std) (by rw [new_sides]; decide)

/-- Claim C6: a die built with a stub RNG that always returns its lower bound
rolls `1` on every call, for any configured `u8` side count `n ≥ 2`. -/
theorem stub_low_roll_one (r : DieRng) (hr : ∀ l h, r.random_int l h = l)
    (n : Nat) (h2 : 2 ≤ n) (h256 : n < 256) (std : DieRng) (k : Nat) :
    (Die.roll (Die.rollN (DieBuilder.build
        (DieBuilder.rng' (DieBuilder.sides' (DieBuilder.new std) n) r)) k).2).1 = 1 := by
  rw [roll_fst, rollN_rng, rollN_sides]
  exact hr 1 _

/-- Witness for C6 with the test suite's stub RNG and `n = 6`, `k = 0`. -/
theorem stub_low_roll_one_witness :
    (Die.roll (Die.rollN (DieBuilder.build
        (DieBuilder.rng' (DieBuilder.sides' (DieBuilder.new DieTerribleRng) 6)
          DieTerribleRng)) 0).2).1 = 1 :=
  stub_low_roll_one DieTerribleRng (fun _ _ => rfl) 6 (by decide) (by decide)
    DieTerribleRng 0

/-- Claim C7: `get_history()` leaves the die unchanged, so repeated calls with
no intervening `roll()` return equal sequences. -/
theorem get_history_idempotent (d : Die) :
    (Die.get_history d).2 = d ∧
    (Die.get_history (Die.get_history d).2).1 = (Die.get_history d).1 :=
  ⟨rfl, rfl⟩

/-- Claim C8: `roll()` validates nothing: for any configured RNG it returns
exactly the RNG's value for the bounds `(1, sides)` and appends exactly that
value to the history, even when the value lies outside `[1, sides)`. -/
theorem roll_no_validation (r : DieRng) (d : Die) (hre : d.rng = r) :
    (Die.roll d).1 = r.random_int 1 d.sides ∧
    (Die.roll d).2.history = d.history ++ [r.random_int 1 d.sides] := by
  subst hre
  exact ⟨rfl, rfl⟩

/-- Witness for C8: an RNG that always produces 200 — far outside `[1, 6)` —
has its value returned and recorded untouched. -/
theorem roll_no_validation_witness :
    (Die.roll (DieBuilder.build
        (DieBuilder.rng' (DieBuilder.sides' (DieBuilder.new DieTerribleRng) 6)
          BigRng))).1 = 200 ∧
    (Die.roll (DieBuilder.build
        (DieBuilder.rng' (DieBuilder.sides' (DieBuilder.new DieTerribleRng) 6)
          BigRng))).2.history = [200] :=
  roll_no_validation BigRng
    (DieBuilder.build
      (DieBuilder.rng' (DieBuilder.sides' (DieBuilder.new DieTerribleRng) 6)
        BigRng)) rfl

/-- Claim C9: `roll()` leaves `sides` and the configured RNG unchanged, and its
only state change is appending the returned value to the history. -/
theorem roll_frame (d : Die) :
    (Die.roll d).2.sides = d.sides ∧
    (Die.roll d).2.rng = d.rng ∧
    (Die.roll d).2 = { d with history := d.history ++ [(Die.roll d).1] } :=
  ⟨rfl, rfl, rfl⟩

/-- Claim C10: `Die::builder()` and `DieBuilder::new()` return identical
builders in the default state (6 sides, the standard RNG), so any chain of
builder calls applied to either yields identical dice. -/
theorem builder_eq_new (std : DieRng) (ops : List BuilderOp) :
    Die.builder std = DieBuilder.new std ∧
    (Die.builder std).sides = 6 ∧
    DieBuilder.build (applyOps (Die.builder std) ops)
      = DieBuilder.build (applyOps (DieBuilder.new std) ops) :=
  ⟨rfl, rfl, rfl⟩
